import Mathlib

/-!
Shallow embedding of `src/layergen.py`, a click-based command-line tool that
creates, lists and deletes AWS Lambda layers.

External interactions (pip, npm, the aws CLI, uuid generation, the archiver)
are modelled by an `Env` record that fixes the outcome of each one.  The
filesystem is a list of existing paths.  Every command returns its process
outcome together with the ordered trace of observable side effects: console
output (`click.echo`), spawned subprocesses (`subprocess.run`), archive
creation (`shutil.make_archive`) and recursive removal (`shutil.rmtree`).

A `subprocess.run` argv that would contain Python `None` raises `TypeError`
before any process is spawned; since `create` only catches
`subprocess.CalledProcessError`, that surfaces as a crash (`Outcome.crashed`)
whose `finally` block still runs.
-/

namespace Layergen

/-- Process outcome: normal return (exit 0), `sys.exit(1)`, or an uncaught
Python exception (which also makes the interpreter exit nonzero). -/
inductive Outcome where
  | ok
  | exited
  | crashed
deriving DecidableEq, Repr

/-- The two runtimes accepted by the `--runtime` click option. -/
inductive Runtime where
  | nodejs
  | python
deriving DecidableEq, Repr

/-- Observable side effects of one command invocation, in program order. -/
inductive Event where
  | echo (msg : String)
  | run (argv : List String)
  | makeArchive (base ext root : String)
  | rmtree (path : String)
deriving DecidableEq, Repr

/-- Outcomes of the external interactions one invocation can perform:
which executables exist, exit codes and stdout of each subprocess, the
generated uuid, the paths the package installer creates, and whether
`shutil.make_archive` actually produced its output file. -/
structure Env where
  hasAws : Bool
  hasPip : Bool
  hasNpm : Bool
  stsExit : Int
  cfgRegionExit : Int
  cfgRegionOut : String
  uuid : String
  installExit : Int
  installWrites : List String
  archiveWorks : Bool
  publishExit : Int
  listExit : Int
  listOut : String
  deleteExit : Int
deriving Repr

/-- Result of the `create` command. -/
structure Res where
  outcome : Outcome
  events : List Event
  fs : List String
deriving DecidableEq, Repr

/-- Result of the `list` and `delete` commands (they do not touch the
filesystem). -/
structure CmdRes where
  outcome : Outcome
  events : List Event
deriving DecidableEq, Repr

/-- ASCII whitespace, as stripped by Python `str.strip()` / `str.split()`. -/
def isSpaceChar (c : Char) : Bool :=
  c == ' ' || c == '\t' || c == '\n' || c == '\r' || c == '\x0b' || c == '\x0c'

/-- Python `str.strip()`. -/
def pyStrip (s : String) : String :=
  ⟨((s.data.dropWhile isSpaceChar).reverse.dropWhile isSpaceChar).reverse⟩

/-- Worker for `pySplit`: walks the characters, accumulating the current
token in reverse. -/
def pySplitChars : List Char → List Char → List String
  | [], cur => if cur = [] then [] else [String.mk cur.reverse]
  | c :: cs, cur =>
    if isSpaceChar c then
      if cur = [] then pySplitChars cs [] else String.mk cur.reverse :: pySplitChars cs []
    else pySplitChars cs (c :: cur)

/-- Python `str.split()` with no separator: split on whitespace runs,
dropping empty tokens. -/
def pySplit (s : String) : List String :=
  pySplitChars s.data []

/-- `begins a b` holds when the character list `a` is an initial segment
of `b`. -/
def begins : List Char → List Char → Bool
  | [], _ => true
  | _ :: _, [] => false
  | a :: as, b :: bs => a == b && begins as bs

/-- `p` is the directory `d` itself or lies strictly below it. -/
def underDir (d p : String) : Bool :=
  d == p || begins (d.data ++ ['/']) p.data

/-- `os.makedirs(p, exist_ok=True)` restricted to the path itself. -/
def addPath (p : String) (fs : List String) : List String :=
  if p ∈ fs then fs else p :: fs

/-- `shutil.rmtree(d, ignore_errors=True)`: every path at or below `d`
disappears. -/
def rmtreeFS (d : String) (fs : List String) : List String :=
  fs.filter (fun p => !underDir d p)

/-- One character of the class `[a-zA-Z0-9-]`. -/
def nameChar (c : Char) : Bool :=
  ('a' ≤ c && c ≤ 'z') || ('A' ≤ c && c ≤ 'Z') || ('0' ≤ c && c ≤ '9') || c == '-'

/-- A nonempty run of `[a-zA-Z0-9-]` characters. -/
def matchesClass (l : List Char) : Bool :=
  !l.isEmpty && l.all nameChar

/-- Python `re.match(r"^[a-zA-Z0-9-]+$", s) is not None`.  Python's `$`
also matches just before one newline at the very end of the string, so a
single trailing newline is tolerated. -/
def validName (s : String) : Bool :=
  matchesClass s.data ||
    (s.data.getLast? == some '\n' && matchesClass s.data.dropLast)

def awsMsg : String := "Please install the AWS CLI before running this script."

def pipMsg : String := "Please install pip before running this script."

def npmMsg : String := "Please install npm before running this script."

def signInMsg : String := "Please sign in to the AWS CLI before running this script."

def nameErrMsg : String := "Error: Layer name can only contain letters, numbers, and dashes."

def noRegionMsg : String :=
  "Error: No AWS region specified. Please set AWS_DEFAULT_REGION or configure your AWS CLI."

def stsArgv : List String := ["aws", "sts", "get-caller-identity"]

def cfgArgv : List String := ["aws", "configure", "get", "region"]

/-- `get_default_region()`: returns the stripped stdout of
`aws configure get region` when that query exits 0, else Python `None`. -/
def get_default_region (env : Env) : Option String :=
  if env.cfgRegionExit = 0 then some (pyStrip env.cfgRegionOut) else none

/-- Region resolution inside `create`: the source compares the option value
with the string literal `"None"` (`if region == "None"`), so only that
literal triggers the default-region query; an absent option (Python `None`)
is left untouched. -/
def createRegion (env : Env) (region : Option String) : Option String :=
  if region = some "None" then get_default_region env else region

/-- Region resolution inside `list` and `delete`: `if region is None`. -/
def resolveRegionDefault (env : Env) (region : Option String) : Option String :=
  match region with
  | none => get_default_region env
  | some r => some r

def tempDirOf (uuid : String) : String := "/tmp/layergen/" ++ uuid

def zipFileOf (uuid layer : String) : String := tempDirOf uuid ++ "/" ++ layer ++ ".zip"

def runtimeDirOf : Runtime → String
  | .nodejs => "nodejs"
  | .python => "python"

def runtimeVersionOf : Runtime → String
  | .nodejs => "nodejs20.x"
  | .python => "python3.12"

/-- The `"You selected ..."` echo after runtime selection. -/
def selectEchoOf : Runtime → Event
  | .nodejs => .echo "You selected Node.js 20.x"
  | .python => .echo "You selected Python 3.12"

/-- The `"Installing ... packages"` echo before the installer runs. -/
def installEchoOf : Runtime → Event
  | .nodejs => .echo "Installing npm packages"
  | .python => .echo "Installing pip packages"

/-- The installer argv: `npm install --prefix <dir> pkgs...` or
`pip install --target <dir> pkgs...`. -/
def installArgvOf (uuid : String) (rt : Runtime) (packages : String) : List String :=
  match rt with
  | .nodejs => ["npm", "install", "--prefix", tempDirOf uuid ++ "/" ++ runtimeDirOf rt]
      ++ pySplit packages
  | .python => ["pip", "install", "--target", tempDirOf uuid ++ "/" ++ runtimeDirOf rt]
      ++ pySplit packages

/-- Inside `create`, the default-region query runs only when the supplied
region equals the string literal `"None"`. -/
def regionQueryEventsOf (region : Option String) : List Event :=
  if region = some "None" then [.run cfgArgv] else []

/-- Directories produced by the `os.makedirs` calls of `create`: the `/tmp`
chain, the per-uuid staging root, the runtime subdirectory, and for node the
module cache. -/
def stagedDirsFs (uuid : String) (rt : Runtime) (fs0 : List String) : List String :=
  match rt with
  | .nodejs => addPath (tempDirOf uuid ++ "/" ++ runtimeDirOf rt ++ "/node_modules")
      (addPath (tempDirOf uuid ++ "/" ++ runtimeDirOf rt)
        (addPath (tempDirOf uuid) (addPath "/tmp/layergen" (addPath "/tmp" fs0))))
  | .python => addPath (tempDirOf uuid ++ "/" ++ runtimeDirOf rt)
      (addPath (tempDirOf uuid) (addPath "/tmp/layergen" (addPath "/tmp" fs0)))

/-- Filesystem after a successful package installation. -/
def stagedFs (env : Env) (rt : Runtime) (fs0 : List String) : List String :=
  env.installWrites.foldl (fun acc p => addPath p acc) (stagedDirsFs env.uuid rt fs0)

/-- Filesystem after the `shutil.make_archive` step: the zip appears only if
the archiver actually produced it. -/
def archivedFs (env : Env) (ln : String) (rt : Runtime) (fs0 : List String) : List String :=
  if env.archiveWorks then addPath (zipFileOf env.uuid ln) (stagedFs env rt fs0)
  else stagedFs env rt fs0

/-- Events of `create` up to and including the installer subprocess. -/
def preInstallEvents (uuid : String) (rt : Runtime) (packages : String)
    (region : Option String) : List Event :=
  [.run stsArgv, selectEchoOf rt] ++ regionQueryEventsOf region
    ++ [installEchoOf rt, .run (installArgvOf uuid rt packages)]

/-- Events of the archive step: the confirmation echo and the
`shutil.make_archive(temp_dir/layer_name, "zip", temp_dir)` call, whose
source tree is the entire staging root. -/
def archiveEvents (uuid ln packages : String) : List Event :=
  [.echo ("Installed packages: " ++ packages),
    .makeArchive (tempDirOf uuid ++ "/" ++ ln) "zip" (tempDirOf uuid)]

/-- Argv of `aws lambda publish-layer-version`. -/
def publishArgvOf (uuid ln : String) (rt : Runtime) (r : String) : List String :=
  ["aws", "lambda", "publish-layer-version", "--layer-name", ln,
   "--zip-file", "fileb://" ++ zipFileOf uuid ln, "--compatible-runtimes",
   runtimeVersionOf rt, "--region", r]

/-- The `create` command: dependency and sign-in checks, layer-name
validation, region resolution, staging, package installation, archiving,
archive-existence check, publish, and the `finally` cleanup.  A resolved
region of Python `None` reaches `subprocess.run` as a `None` argv element,
raising an uncaught `TypeError` (`.crashed`) before any publish process is
spawned; the `finally` block still removes the staging root. -/
def create (env : Env) (layer_name : String) (runtime : Runtime) (packages : String)
    (region : Option String) (fs0 : List String) : Res :=
  if env.hasAws = false then ⟨.exited, [.echo awsMsg], fs0⟩
  else if env.hasPip = false then ⟨.exited, [.echo pipMsg], fs0⟩
  else if env.hasNpm = false then ⟨.exited, [.echo npmMsg], fs0⟩
  else if env.stsExit ≠ 0 then ⟨.exited, [.run stsArgv, .echo signInMsg], fs0⟩
  else if validName layer_name = false then
    ⟨.exited, [.run stsArgv, .echo nameErrMsg], fs0⟩
  else if env.installExit ≠ 0 then
    ⟨.exited,
      preInstallEvents env.uuid runtime packages region
        ++ [.echo "Error: None", .rmtree (tempDirOf env.uuid)],
      rmtreeFS (tempDirOf env.uuid) (stagedDirsFs env.uuid runtime fs0)⟩
  else if zipFileOf env.uuid layer_name ∈ archivedFs env layer_name runtime fs0 then
    match createRegion env region with
    | none =>
      ⟨.crashed,
        preInstallEvents env.uuid runtime packages region
          ++ archiveEvents env.uuid layer_name packages
          ++ [.echo ("Uploading Lambda Layer from " ++ zipFileOf env.uuid layer_name),
            .rmtree (tempDirOf env.uuid)],
        rmtreeFS (tempDirOf env.uuid) (archivedFs env layer_name runtime fs0)⟩
    | some r =>
      if env.publishExit ≠ 0 then
        ⟨.exited,
          preInstallEvents env.uuid runtime packages region
            ++ archiveEvents env.uuid layer_name packages
            ++ [.echo ("Uploading Lambda Layer from " ++ zipFileOf env.uuid layer_name),
              .run (publishArgvOf env.uuid layer_name runtime r),
              .echo "Error: None", .rmtree (tempDirOf env.uuid)],
          rmtreeFS (tempDirOf env.uuid) (archivedFs env layer_name runtime fs0)⟩
      else
        ⟨.ok,
          preInstallEvents env.uuid runtime packages region
            ++ archiveEvents env.uuid layer_name packages
            ++ [.echo ("Uploading Lambda Layer from " ++ zipFileOf env.uuid layer_name),
              .run (publishArgvOf env.uuid layer_name runtime r),
              .echo ("Layer " ++ layer_name ++
                " has been successfully created and uploaded to AWS Lambda in " ++ r ++ "."),
              .rmtree (tempDirOf env.uuid)],
          rmtreeFS (tempDirOf env.uuid) (archivedFs env layer_name runtime fs0)⟩
  else
    ⟨.exited,
      preInstallEvents env.uuid runtime packages region
        ++ archiveEvents env.uuid layer_name packages
        ++ [.echo "Zip file was not created.", .rmtree (tempDirOf env.uuid)],
      rmtreeFS (tempDirOf env.uuid) (archivedFs env layer_name runtime fs0)⟩

/-- In `list` and `delete` the default-region query runs exactly when the
`--region` option is absent (`if region is None`). -/
def regionQueryEventsIsNone (region : Option String) : List Event :=
  if region = none then [.run cfgArgv] else []

/-- Argv of `aws lambda list-layers`. -/
def listArgvOf (r : String) : List String := ["aws", "lambda", "list-layers", "--region", r]

/-- Argv of `aws lambda delete-layer-version`. -/
def deleteArgvOf (ln vn r : String) : List String :=
  ["aws", "lambda", "delete-layer-version", "--layer-name", ln,
   "--version-number", vn, "--region", r]

/-- The `list` command: checks, region resolution (`is None`), then
`aws lambda list-layers`; a failing list call is echoed but does not set a
nonzero exit, a missing region exits 1. -/
def list (env : Env) (region : Option String) : CmdRes :=
  if env.hasAws = false then ⟨.exited, [.echo awsMsg]⟩
  else if env.hasPip = false then ⟨.exited, [.echo pipMsg]⟩
  else if env.hasNpm = false then ⟨.exited, [.echo npmMsg]⟩
  else if env.stsExit ≠ 0 then ⟨.exited, [.run stsArgv, .echo signInMsg]⟩
  else
    match resolveRegionDefault env region with
    | none => ⟨.exited, [.run stsArgv] ++ regionQueryEventsIsNone region ++ [.echo noRegionMsg]⟩
    | some r =>
      if env.listExit ≠ 0 then
        ⟨.ok, [.run stsArgv] ++ regionQueryEventsIsNone region
          ++ [.run (listArgvOf r), .echo "Error listing layers."]⟩
      else
        ⟨.ok, [.run stsArgv] ++ regionQueryEventsIsNone region
          ++ [.run (listArgvOf r), .echo env.listOut]⟩

/-- The `delete` command: checks, region resolution (`is None`), then
`aws lambda delete-layer-version`; a missing region merely echoes the
diagnostic and returns (exit 0), and a failing delete call is caught and
echoed, also returning normally. -/
def delete (env : Env) (layer_name version_number : String)
    (region : Option String) : CmdRes :=
  if env.hasAws = false then ⟨.exited, [.echo awsMsg]⟩
  else if env.hasPip = false then ⟨.exited, [.echo pipMsg]⟩
  else if env.hasNpm = false then ⟨.exited, [.echo npmMsg]⟩
  else if env.stsExit ≠ 0 then ⟨.exited, [.run stsArgv, .echo signInMsg]⟩
  else
    match resolveRegionDefault env region with
    | none => ⟨.ok, [.run stsArgv] ++ regionQueryEventsIsNone region ++ [.echo noRegionMsg]⟩
    | some r =>
      if env.deleteExit ≠ 0 then
        ⟨.ok, [.run stsArgv] ++ regionQueryEventsIsNone region
          ++ [.run (deleteArgvOf layer_name version_number r), .echo "Error deleting the layer."]⟩
      else
        ⟨.ok, [.run stsArgv] ++ regionQueryEventsIsNone region
          ++ [.run (deleteArgvOf layer_name version_number r),
            .echo ("Layer " ++ layer_name ++ " version " ++ version_number ++
              " has been deleted.")]⟩

/-- Recognises a spawned `aws lambda publish-layer-version` call. -/
def isPublishRun : Event → Bool
  | .run ("aws" :: "lambda" :: "publish-layer-version" :: _) => true
  | _ => false

/-- Recognises a spawned package-installer call. -/
def isInstallRun : Event → Bool
  | .run ("pip" :: "install" :: _) => true
  | .run ("npm" :: "install" :: _) => true
  | _ => false

/-- Recognises the `aws configure get region` default-region query. -/
def isCfgQuery : Event → Bool
  | .run ("aws" :: "configure" :: _) => true
  | _ => false

/-- Recognises a spawned `aws lambda delete-layer-version` call. -/
def isDeleteRun : Event → Bool
  | .run ("aws" :: "lambda" :: "delete-layer-version" :: _) => true
  | _ => false

/-- Recognises a spawned `aws lambda list-layers` call. -/
def isListRun : Event → Bool
  | .run ("aws" :: "lambda" :: "list-layers" :: _) => true
  | _ => false

/-- Recognises a `shutil.make_archive` call. -/
def isMakeArchive : Event → Bool
  | .makeArchive _ _ _ => true
  | _ => false

/-- Recognises a `shutil.rmtree` call. -/
def isRmtree : Event → Bool
  | .rmtree _ => true
  | _ => false

/-- A fully healthy environment used to instantiate theorems on concrete
inputs: every executable present, every subprocess succeeding. -/
def envBase : Env where
  hasAws := true
  hasPip := true
  hasNpm := true
  stsExit := 0
  cfgRegionExit := 0
  cfgRegionOut := "eu-west-2"
  uuid := "2f1d9a6c"
  installExit := 0
  installWrites := []
  archiveWorks := true
  publishExit := 0
  listExit := 0
  listOut := "[]"
  deleteExit := 0

/-! ### Helper lemmas about paths and the filesystem model -/

theorem str_data_append (a b : String) : (a ++ b).data = a.data ++ b.data := rfl

theorem str_eq_of_data {a b : String} (h : a.data = b.data) : a = b := by
  cases a
  cases b
  exact congrArg String.mk h

theorem begins_self_append (l m : List Char) : begins l (l ++ m) = true := by
  induction l with
  | nil => rfl
  | cons a as ih => simp [begins, ih]

theorem begins_length {a b : List Char} (h : begins a b = true) : a.length ≤ b.length := by
  induction a generalizing b with
  | nil => simp
  | cons x xs ih =>
    cases b with
    | nil => simp [begins] at h
    | cons y ys =>
      simp only [begins, Bool.and_eq_true, beq_iff_eq] at h
      have := ih h.2
      simp only [List.length_cons]
      omega

theorem begins_eq_of_length {a b c : List Char} (ha : begins a c = true)
    (hb : begins b c = true) (h : a.length = b.length) : a = b := by
  induction a generalizing b c with
  | nil =>
    cases b with
    | nil => rfl
    | cons y ys => simp at h
  | cons x xs ih =>
    cases b with
    | nil => simp at h
    | cons y ys =>
      cases c with
      | nil => simp [begins] at ha
      | cons z zs =>
        simp only [begins, Bool.and_eq_true, beq_iff_eq] at ha hb
        simp only [List.length_cons, Nat.add_right_cancel_iff] at h
        rw [ha.1, hb.1, ih ha.2 hb.2 h]

theorem underDir_self (d : String) : underDir d d = true := by
  simp [underDir]

theorem underDir_child (d rest : String) : underDir d (d ++ "/" ++ rest) = true := by
  have h : (d ++ "/" ++ rest).data = (d.data ++ ['/']) ++ rest.data := by
    simp [str_data_append, List.append_assoc]
  simp only [underDir, h, begins_self_append, Bool.or_true]

theorem not_mem_rmtreeFS {d p : String} (h : underDir d p = true) (fs : List String) :
    p ∉ rmtreeFS d fs := by
  intro hp
  have := (List.mem_filter.mp hp).2
  simp [h] at this

theorem mem_addPath {p q : String} {fs : List String} :
    p ∈ addPath q fs ↔ p = q ∨ p ∈ fs := by
  unfold addPath
  split
  · constructor
    · exact fun h => .inr h
    · rintro (rfl | h) <;> assumption
  · simp [List.mem_cons]

theorem mem_foldl_addPath (ws : List String) (fs : List String) (p : String) :
    p ∈ ws.foldl (fun acc q => addPath q acc) fs ↔ p ∈ fs ∨ p ∈ ws := by
  induction ws generalizing fs with
  | nil => simp
  | cons w ws ih =>
    simp only [List.foldl_cons, ih, mem_addPath, List.mem_cons]
    tauto

theorem getLast_append_zip (l : List Char) :
    (l ++ ('.' :: 'z' :: 'i' :: 'p' :: [])).getLast? = some 'p' := by
  induction l with
  | nil => rfl
  | cons a as ih =>
    cases as with
    | nil => rfl
    | cons b bs => exact ih

theorem tempDir_data (u : String) :
    (tempDirOf u).data = "/tmp/layergen/".data ++ u.data := rfl

theorem zipFile_data (u ln : String) :
    (zipFileOf u ln).data =
      (tempDirOf u).data ++ ('/' :: (ln.data ++ ('.' :: 'z' :: 'i' :: 'p' :: []))) := by
  show (((tempDirOf u ++ "/") ++ ln) ++ ".zip").data = _
  simp [str_data_append, List.append_assoc]

theorem zipFile_ne_tmp (u ln : String) : zipFileOf u ln ≠ "/tmp" := by
  intro h
  have hd := congrArg String.data h
  rw [zipFile_data, tempDir_data] at hd
  have hl := congrArg List.length hd
  simp [List.length_append] at hl

theorem zipFile_ne_layergenRoot (u ln : String) : zipFileOf u ln ≠ "/tmp/layergen" := by
  intro h
  have hd := congrArg String.data h
  rw [zipFile_data, tempDir_data] at hd
  have hl := congrArg List.length hd
  simp [List.length_append] at hl

theorem zipFile_ne_tempDir (u ln : String) : zipFileOf u ln ≠ tempDirOf u := by
  intro h
  have hd := congrArg String.data h
  rw [zipFile_data] at hd
  have hl := congrArg List.length hd
  simp [List.length_append] at hl

theorem zipFile_ne_runtimeSubdir (u ln : String) (rt : Runtime) :
    zipFileOf u ln ≠ tempDirOf u ++ "/" ++ runtimeDirOf rt := by
  intro h
  have hd := congrArg String.data h
  rw [zipFile_data] at hd
  have h2 : (tempDirOf u ++ "/" ++ runtimeDirOf rt).data =
      (tempDirOf u).data ++ ('/' :: (runtimeDirOf rt).data) := by
    simp [str_data_append, List.append_assoc]
  rw [h2] at hd
  have h3 := List.append_cancel_left hd
  have h4 : ln.data ++ ('.' :: 'z' :: 'i' :: 'p' :: []) = (runtimeDirOf rt).data := by
    simpa using h3
  have h5 := getLast_append_zip ln.data
  rw [h4] at h5
  cases rt <;> simp [runtimeDirOf] at h5

theorem zipFile_ne_nodeModules (u ln : String) (rt : Runtime) :
    zipFileOf u ln ≠ tempDirOf u ++ "/" ++ runtimeDirOf rt ++ "/node_modules" := by
  intro h
  have hd := congrArg String.data h
  rw [zipFile_data] at hd
  have h2 : (tempDirOf u ++ "/" ++ runtimeDirOf rt ++ "/node_modules").data =
      (tempDirOf u).data ++ ('/' :: ((runtimeDirOf rt).data ++ "/node_modules".data)) := by
    simp [str_data_append, List.append_assoc]
  rw [h2] at hd
  have h3 := List.append_cancel_left hd
  have h4 : ln.data ++ ('.' :: 'z' :: 'i' :: 'p' :: []) =
      (runtimeDirOf rt).data ++ "/node_modules".data := by
    simpa using h3
  have h5 := getLast_append_zip ln.data
  rw [h4] at h5
  cases rt <;> simp [runtimeDirOf] at h5

theorem tempDir_trees_disjoint {u₁ u₂ : String} (hne : u₁ ≠ u₂)
    (hlen : u₁.length = u₂.length) :
    ∀ p, underDir (tempDirOf u₁) p = true → underDir (tempDirOf u₂) p = false := by
  intro p h1
  by_contra hcon
  have h2 : underDir (tempDirOf u₂) p = true := by
    cases h : underDir (tempDirOf u₂) p
    · exact absurd h hcon
    · rfl
  have hlen' : u₁.data.length = u₂.data.length := hlen
  simp only [underDir, Bool.or_eq_true, beq_iff_eq] at h1 h2
  have huiff : tempDirOf u₁ = tempDirOf u₂ → False := by
    intro he
    have := List.append_cancel_left (congrArg String.data he)
    exact hne (str_eq_of_data this)
  rcases h1 with h1 | h1 <;> rcases h2 with h2 | h2
  · exact huiff (h1.trans h2.symm)
  · -- tempDirOf u₁ = p  and  tempDirOf u₂ ++ "/" is a prefix of p
    have hb := begins_length h2
    rw [← h1] at hb
    simp [List.length_append, tempDir_data] at hb
    omega
  · have hb := begins_length h1
    rw [← h2] at hb
    simp [List.length_append, tempDir_data] at hb
    omega
  · have heq := begins_eq_of_length h1 h2 (by simp [List.length_append, tempDir_data, hlen'])
    have := List.append_cancel_right heq
    exact huiff (str_eq_of_data this)

@[simp] theorem isPublishRun_echo (m : String) : isPublishRun (.echo m) = false := rfl

@[simp] theorem isPublishRun_rmtree (p : String) : isPublishRun (.rmtree p) = false := rfl

@[simp] theorem isPublishRun_makeArchive (b e r : String) :
    isPublishRun (.makeArchive b e r) = false := rfl

@[simp] theorem isPublishRun_sts : isPublishRun (.run stsArgv) = false := rfl

@[simp] theorem isPublishRun_cfg : isPublishRun (.run cfgArgv) = false := rfl

@[simp] theorem isPublishRun_npm (a : String) (rest : List String) :
    isPublishRun (.run ("npm" :: a :: rest)) = false := rfl

@[simp] theorem isPublishRun_pip (a : String) (rest : List String) :
    isPublishRun (.run ("pip" :: a :: rest)) = false := rfl

@[simp] theorem isPublishRun_pub (rest : List String) :
    isPublishRun (.run ("aws" :: "lambda" :: "publish-layer-version" :: rest)) = true := rfl

@[simp] theorem isInstallRun_echo (m : String) : isInstallRun (.echo m) = false := rfl

@[simp] theorem isInstallRun_rmtree (p : String) : isInstallRun (.rmtree p) = false := rfl

@[simp] theorem isInstallRun_makeArchive (b e r : String) :
    isInstallRun (.makeArchive b e r) = false := rfl

@[simp] theorem isInstallRun_sts : isInstallRun (.run stsArgv) = false := rfl

@[simp] theorem isInstallRun_cfg : isInstallRun (.run cfgArgv) = false := rfl

@[simp] theorem isInstallRun_npm (a : String) (rest : List String) :
    isInstallRun (.run ("npm" :: "install" :: a :: rest)) = true := rfl

@[simp] theorem isInstallRun_pip (a : String) (rest : List String) :
    isInstallRun (.run ("pip" :: "install" :: a :: rest)) = true := rfl

@[simp] theorem isCfgQuery_echo (m : String) : isCfgQuery (.echo m) = false := rfl

@[simp] theorem isCfgQuery_rmtree (p : String) : isCfgQuery (.rmtree p) = false := rfl

@[simp] theorem isCfgQuery_makeArchive (b e r : String) :
    isCfgQuery (.makeArchive b e r) = false := rfl

@[simp] theorem isCfgQuery_sts : isCfgQuery (.run stsArgv) = false := rfl

@[simp] theorem isCfgQuery_cfg : isCfgQuery (.run cfgArgv) = true := rfl

@[simp] theorem isCfgQuery_npm (a : String) (rest : List String) :
    isCfgQuery (.run ("npm" :: a :: rest)) = false := rfl

@[simp] theorem isCfgQuery_pip (a : String) (rest : List String) :
    isCfgQuery (.run ("pip" :: a :: rest)) = false := rfl

@[simp] theorem isCfgQuery_pub (rest : List String) :
    isCfgQuery (.run ("aws" :: "lambda" :: rest)) = false := rfl

@[simp] theorem isDeleteRun_echo (m : String) : isDeleteRun (.echo m) = false := rfl

@[simp] theorem isDeleteRun_sts : isDeleteRun (.run stsArgv) = false := rfl

@[simp] theorem isDeleteRun_cfg : isDeleteRun (.run cfgArgv) = false := rfl

@[simp] theorem isDeleteRun_del (rest : List String) :
    isDeleteRun (.run ("aws" :: "lambda" :: "delete-layer-version" :: rest)) = true := rfl

@[simp] theorem isListRun_echo (m : String) : isListRun (.echo m) = false := rfl

@[simp] theorem isListRun_sts : isListRun (.run stsArgv) = false := rfl

@[simp] theorem isListRun_cfg : isListRun (.run cfgArgv) = false := rfl

@[simp] theorem isListRun_list (rest : List String) :
    isListRun (.run ("aws" :: "lambda" :: "list-layers" :: rest)) = true := rfl

@[simp] theorem isMakeArchive_echo (m : String) : isMakeArchive (.echo m) = false := rfl

@[simp] theorem isMakeArchive_run (l : List String) : isMakeArchive (.run l) = false := rfl

@[simp] theorem isMakeArchive_rmtree (p : String) : isMakeArchive (.rmtree p) = false := rfl

@[simp] theorem isMakeArchive_arch (b e r : String) :
    isMakeArchive (.makeArchive b e r) = true := rfl

@[simp] theorem isRmtree_echo (m : String) : isRmtree (.echo m) = false := rfl

@[simp] theorem isRmtree_run (l : List String) : isRmtree (.run l) = false := rfl

@[simp] theorem isRmtree_arch (b e r : String) : isRmtree (.makeArchive b e r) = false := rfl

@[simp] theorem isRmtree_rm (p : String) : isRmtree (.rmtree p) = true := rfl

@[simp] theorem isInstallRun_aws (rest : List String) :
    isInstallRun (.run ("aws" :: rest)) = false := rfl

@[simp] theorem isPublishRun_publishArgv (u ln : String) (rt : Runtime) (r : String) :
    isPublishRun (.run (publishArgvOf u ln rt r)) = true := by
  simp [publishArgvOf]

@[simp] theorem isInstallRun_installArgv (u : String) (rt : Runtime) (pkgs : String) :
    isInstallRun (.run (installArgvOf u rt pkgs)) = true := by
  cases rt <;> simp [installArgvOf]

theorem filter_isPublishRun_preInstallEvents (u : String) (rt : Runtime) (pkgs : String)
    (region : Option String) :
    (preInstallEvents u rt pkgs region).filter isPublishRun = [] := by
  cases rt <;> unfold preInstallEvents regionQueryEventsOf selectEchoOf installEchoOf
    <;> split <;> simp [installArgvOf]

theorem filter_isPublishRun_archiveEvents (u ln pkgs : String) :
    (archiveEvents u ln pkgs).filter isPublishRun = [] := by
  simp [archiveEvents]

theorem filter_isInstallRun_archiveEvents (u ln pkgs : String) :
    (archiveEvents u ln pkgs).filter isInstallRun = [] := by
  simp [archiveEvents]

theorem filter_isInstallRun_preInstallEvents (u : String) (rt : Runtime) (pkgs : String)
    (region : Option String) :
    (preInstallEvents u rt pkgs region).filter isInstallRun
      = [.run (installArgvOf u rt pkgs)] := by
  cases rt <;> unfold preInstallEvents regionQueryEventsOf selectEchoOf installEchoOf
    <;> split <;> simp [installArgvOf]

theorem filter_isCfgQuery_preInstallEvents (u : String) (rt : Runtime) (pkgs : String)
    (region : Option String) :
    (preInstallEvents u rt pkgs region).filter isCfgQuery = regionQueryEventsOf region := by
  cases rt <;> unfold preInstallEvents regionQueryEventsOf selectEchoOf installEchoOf
    <;> split <;> simp [installArgvOf]

theorem filter_isCfgQuery_archiveEvents (u ln pkgs : String) :
    (archiveEvents u ln pkgs).filter isCfgQuery = [] := by
  simp [archiveEvents]

theorem filter_isRmtree_preInstallEvents (u : String) (rt : Runtime) (pkgs : String)
    (region : Option String) :
    (preInstallEvents u rt pkgs region).filter isRmtree = [] := by
  cases rt <;> unfold preInstallEvents regionQueryEventsOf selectEchoOf installEchoOf
    <;> split <;> simp [installArgvOf]

theorem filter_isRmtree_archiveEvents (u ln pkgs : String) :
    (archiveEvents u ln pkgs).filter isRmtree = [] := by
  simp [archiveEvents]

theorem filter_isMakeArchive_preInstallEvents (u : String) (rt : Runtime) (pkgs : String)
    (region : Option String) :
    (preInstallEvents u rt pkgs region).filter isMakeArchive = [] := by
  cases rt <;> unfold preInstallEvents regionQueryEventsOf selectEchoOf installEchoOf
    <;> split <;> simp [installArgvOf]

theorem filter_isMakeArchive_archiveEvents (u ln pkgs : String) :
    (archiveEvents u ln pkgs).filter isMakeArchive
      = [.makeArchive (tempDirOf u ++ "/" ++ ln) "zip" (tempDirOf u)] := by
  simp [archiveEvents]

theorem installRun_mem_preInstallEvents (u : String) (rt : Runtime) (pkgs : String)
    (region : Option String) :
    Event.run (installArgvOf u rt pkgs) ∈ preInstallEvents u rt pkgs region := by
  simp [preInstallEvents]

theorem makeArchive_mem_archiveEvents (u ln pkgs : String) :
    Event.makeArchive (tempDirOf u ++ "/" ++ ln) "zip" (tempDirOf u)
      ∈ archiveEvents u ln pkgs := by
  simp [archiveEvents]

theorem zipFile_eq_child (u ln : String) :
    zipFileOf u ln = tempDirOf u ++ "/" ++ (ln ++ ".zip") :=
  str_eq_of_data (by simp [zipFileOf, str_data_append, List.append_assoc])

theorem underDir_zipFile (u ln : String) :
    underDir (tempDirOf u) (zipFileOf u ln) = true := by
  rw [zipFile_eq_child]
  exact underDir_child _ _

theorem zip_not_in_stagedFs (env : Env) (ln : String) (rt : Runtime) (fs0 : List String)
    (hz0 : zipFileOf env.uuid ln ∉ fs0)
    (hzw : zipFileOf env.uuid ln ∉ env.installWrites) :
    zipFileOf env.uuid ln ∉ stagedFs env rt fs0 := by
  intro h
  unfold stagedFs at h
  rw [mem_foldl_addPath] at h
  rcases h with h | h
  · cases rt <;> unfold stagedDirsFs at h <;> simp only [mem_addPath] at h
    · rcases h with h | h | h | h | h
      · exact zipFile_ne_nodeModules env.uuid ln .nodejs h
      · exact zipFile_ne_runtimeSubdir env.uuid ln .nodejs h
      · exact zipFile_ne_tempDir env.uuid ln h
      · exact zipFile_ne_layergenRoot env.uuid ln h
      · rcases h with h | h
        · exact zipFile_ne_tmp env.uuid ln h
        · exact hz0 h
    · rcases h with h | h | h | h
      · exact zipFile_ne_runtimeSubdir env.uuid ln .python h
      · exact zipFile_ne_tempDir env.uuid ln h
      · exact zipFile_ne_layergenRoot env.uuid ln h
      · rcases h with h | h
        · exact zipFile_ne_tmp env.uuid ln h
        · exact hz0 h
  · exact hzw h

/--
C1: For every invocation of the `create` command — success, installer
failure, archive-verification failure, publish failure, or the uncaught
crash on a missing region — every path at or below the staging directory
`/tmp/layergen/<uuid>` (the staging root itself, the runtime subdirectory,
the installed packages, and the archive file) is absent from the final
filesystem, provided this invocation's staging namespace did not already
hold leftover paths beforehand.
-/
theorem create_cleanup_invariant (env : Env) (ln : String) (rt : Runtime)
    (pkgs : String) (region : Option String) (fs0 : List String)
    (h0 : ∀ p, underDir (tempDirOf env.uuid) p = true → p ∉ fs0) :
    ∀ p, underDir (tempDirOf env.uuid) p = true →
      p ∉ (create env ln rt pkgs region fs0).fs := by
  intro p hp hmem
  have hB : ∀ fs, p ∉ rmtreeFS (tempDirOf env.uuid) fs := not_mem_rmtreeFS hp
  simp only [create] at hmem
  repeat' split at hmem
  all_goals first | exact h0 p hp hmem | exact hB _ hmem

/-- Witness for C1: a concrete successful run removes the staging root,
the runtime subdirectory and the archive file. -/
theorem create_cleanup_invariant_witness :
    "/tmp/layergen/2f1d9a6c" ∉
      (create envBase "demo-layer" .python "requests" (some "us-east-1") []).fs ∧
    "/tmp/layergen/2f1d9a6c/demo-layer.zip" ∉
      (create envBase "demo-layer" .python "requests" (some "us-east-1") []).fs :=
  ⟨create_cleanup_invariant envBase "demo-layer" .python "requests" (some "us-east-1") []
      (fun p _ hm => (List.not_mem_nil p) hm) "/tmp/layergen/2f1d9a6c" (by decide),
    create_cleanup_invariant envBase "demo-layer" .python "requests" (some "us-east-1") []
      (fun p _ hm => (List.not_mem_nil p) hm) "/tmp/layergen/2f1d9a6c/demo-layer.zip"
      (by decide)⟩

/--
C7: In every `create` invocation the `aws lambda publish-layer-version`
subprocess is spawned at most once, and when it is spawned its argv is
exactly the layer name, the `fileb://`-prefixed archive path, the single
compatible-runtime tag fixed per runtime (`python3.12` for python,
`nodejs20.x` for nodejs), and the resolved region; so an invocation that
reaches the publish step performs exactly one publish call with exactly
those arguments.
-/
theorem create_publish_call_unique_and_exact (env : Env) (ln : String) (rt : Runtime)
    (pkgs : String) (region : Option String) (fs0 : List String) :
    (runtimeVersionOf .python = "python3.12" ∧ runtimeVersionOf .nodejs = "nodejs20.x") ∧
    ((create env ln rt pkgs region fs0).events.filter isPublishRun = [] ∨
      ∃ r, createRegion env region = some r ∧
        (create env ln rt pkgs region fs0).events.filter isPublishRun =
          [.run (publishArgvOf env.uuid ln rt r)]) := by
  refine ⟨⟨rfl, rfl⟩, ?_⟩
  by_cases hA : env.hasAws = false
  · exact .inl (by simp [create, hA])
  by_cases hP : env.hasPip = false
  · exact .inl (by simp [create, hA, hP])
  by_cases hN : env.hasNpm = false
  · exact .inl (by simp [create, hA, hP, hN])
  by_cases hS : env.stsExit ≠ 0
  · exact .inl (by simp [create, hA, hP, hN, hS])
  by_cases hV : validName ln = false
  · exact .inl (by simp [create, hA, hP, hN, hS, hV])
  by_cases hI : env.installExit ≠ 0
  · exact .inl (by
      simp [create, hA, hP, hN, hS, hV, hI, List.filter_append,
        filter_isPublishRun_preInstallEvents])
  by_cases hz : zipFileOf env.uuid ln ∈ archivedFs env ln rt fs0
  case neg =>
    exact .inl (by
      simp [create, hA, hP, hN, hS, hV, hI, hz, List.filter_append,
        filter_isPublishRun_preInstallEvents, filter_isPublishRun_archiveEvents])
  rcases hR : createRegion env region with _ | r
  · exact .inl (by
      simp [create, hA, hP, hN, hS, hV, hI, hz, hR, List.filter_append,
        filter_isPublishRun_preInstallEvents, filter_isPublishRun_archiveEvents])
  by_cases hPub : env.publishExit ≠ 0
  · exact .inr ⟨r, rfl, by
      simp [create, hA, hP, hN, hS, hV, hI, hz, hR, hPub, List.filter_append,
        filter_isPublishRun_preInstallEvents, filter_isPublishRun_archiveEvents]⟩
  · exact .inr ⟨r, rfl, by
      simp [create, hA, hP, hN, hS, hV, hI, hz, hR, hPub, List.filter_append,
        filter_isPublishRun_preInstallEvents, filter_isPublishRun_archiveEvents]⟩

/--
C4: For every `create` invocation in which no region can be resolved (no
explicit `--region` and a failing default-region query), staging is still
attempted — the installer subprocess is spawned — but the flow never
reaches the publish API call (no publish subprocess appears in the trace)
and the invocation does not end in success.
-/
theorem create_no_region_staging_without_publish (env : Env) (ln : String) (rt : Runtime)
    (pkgs : String) (fs0 : List String)
    (hA : env.hasAws = true) (hP : env.hasPip = true) (hN : env.hasNpm = true)
    (hS : env.stsExit = 0) (hV : validName ln = true)
    (hC : env.cfgRegionExit ≠ 0) :
    Event.run (installArgvOf env.uuid rt pkgs) ∈ (create env ln rt pkgs none fs0).events ∧
    (create env ln rt pkgs none fs0).events.filter isPublishRun = [] ∧
    (create env ln rt pkgs none fs0).outcome ≠ .ok := by
  have hreg : createRegion env none = none := rfl
  unfold create
  simp only [hA, hP, hN, hS, hV, hreg, Bool.true_eq_false, if_false, ne_eq,
    not_true_eq_false, not_false_eq_true, if_true]
  repeat' split
  all_goals
    refine ⟨?_, ?_, ?_⟩ <;>
      simp [List.filter_append, filter_isPublishRun_preInstallEvents,
        filter_isPublishRun_archiveEvents, installRun_mem_preInstallEvents]

/-- Witness for C4 at a concrete environment with a failing
`aws configure get region` query. -/
theorem create_no_region_staging_without_publish_witness :
    (create { envBase with cfgRegionExit := 1 } "demo-layer" .python "requests" none []).outcome
        ≠ .ok ∧
    (create { envBase with cfgRegionExit := 1 } "demo-layer" .python "requests" none
        []).events.filter isPublishRun = [] :=
  ⟨(create_no_region_staging_without_publish { envBase with cfgRegionExit := 1 } "demo-layer"
      .python "requests" [] rfl rfl rfl rfl (by decide) (by decide)).2.2,
    (create_no_region_staging_without_publish { envBase with cfgRegionExit := 1 } "demo-layer"
      .python "requests" [] rfl rfl rfl rfl (by decide) (by decide)).2.1⟩

/--
C6: Every `create` invocation that reaches the archive step (installer
succeeded) calls the archiver on the entire staging root — the
`make_archive` base is `<staging-root>/<layer-name>`, format `zip`, source
tree the staging root itself — and afterwards checks the archive file on
disk: if the archiver silently failed to produce it, the command echoes the
archive-failure message, exits 1, and never spawns the publish call.
-/
theorem create_archives_root_and_verifies (env : Env) (ln : String) (rt : Runtime)
    (pkgs : String) (region : Option String) (fs0 : List String)
    (hA : env.hasAws = true) (hP : env.hasPip = true) (hN : env.hasNpm = true)
    (hS : env.stsExit = 0) (hV : validName ln = true) (hI : env.installExit = 0)
    (hz0 : zipFileOf env.uuid ln ∉ fs0)
    (hzw : zipFileOf env.uuid ln ∉ env.installWrites) :
    Event.makeArchive (tempDirOf env.uuid ++ "/" ++ ln) "zip" (tempDirOf env.uuid)
        ∈ (create env ln rt pkgs region fs0).events ∧
    (env.archiveWorks = false →
      (create env ln rt pkgs region fs0).outcome = .exited ∧
      Event.echo "Zip file was not created." ∈ (create env ln rt pkgs region fs0).events ∧
      (create env ln rt pkgs region fs0).events.filter isPublishRun = []) := by
  constructor
  · by_cases hz : zipFileOf env.uuid ln ∈ archivedFs env ln rt fs0
    · rcases hR : createRegion env region with _ | r
      · simp [create, hA, hP, hN, hS, hV, hI, hz, hR, archiveEvents]
      · by_cases hPub : env.publishExit ≠ 0 <;>
          simp [create, hA, hP, hN, hS, hV, hI, hz, hR, hPub, archiveEvents]
    · simp [create, hA, hP, hN, hS, hV, hI, hz, archiveEvents]
  · intro hW
    have hz : zipFileOf env.uuid ln ∉ archivedFs env ln rt fs0 := by
      simp only [archivedFs, hW, Bool.false_eq_true, if_false]
      exact zip_not_in_stagedFs env ln rt fs0 hz0 hzw
    refine ⟨?_, ?_, ?_⟩ <;>
      simp [create, hA, hP, hN, hS, hV, hI, hz, List.filter_append,
        filter_isPublishRun_preInstallEvents, filter_isPublishRun_archiveEvents]

/-- Witness for C6: with a silently failing archiver, a concrete run calls
`make_archive` on the whole staging root, then exits 1 without publishing. -/
theorem create_archives_root_and_verifies_witness :
    Event.makeArchive (tempDirOf "2f1d9a6c" ++ "/" ++ "demo-layer") "zip" (tempDirOf "2f1d9a6c")
        ∈ (create { envBase with archiveWorks := false } "demo-layer" .python "requests"
          (some "us-east-1") []).events ∧
    (create { envBase with archiveWorks := false } "demo-layer" .python "requests"
        (some "us-east-1") []).outcome = .exited :=
  ⟨(create_archives_root_and_verifies { envBase with archiveWorks := false } "demo-layer"
      .python "requests" (some "us-east-1") [] rfl rfl rfl rfl (by decide) rfl
      (by decide) (by decide)).1,
    ((create_archives_root_and_verifies { envBase with archiveWorks := false } "demo-layer"
      .python "requests" (some "us-east-1") [] rfl rfl rfl rfl (by decide) rfl
      (by decide) (by decide)).2 rfl).1⟩

/--
C2 (code bug): when the installer subprocess exits nonzero, `create` does
abort before the publish call and exits 1, but the message it surfaces is
the literal `"Error: None"` — the installer's stdout and stderr were
redirected to `DEVNULL`, so `e.stderr or e.output` is Python `None` and the
subprocess output is never carried verbatim.  Evaluated at a concrete
failing installer run.
-/
theorem create_install_failure_surfaces_error_none :
    (create { envBase with installExit := 1 } "demo-layer" .python "requests"
        (some "us-east-1") []).events =
      [.run stsArgv, .echo "You selected Python 3.12", .echo "Installing pip packages",
        .run ["pip", "install", "--target", "/tmp/layergen/2f1d9a6c/python", "requests"],
        .echo "Error: None", .rmtree "/tmp/layergen/2f1d9a6c"] ∧
    (create { envBase with installExit := 1 } "demo-layer" .python "requests"
        (some "us-east-1") []).outcome = .exited ∧
    (create { envBase with installExit := 1 } "demo-layer" .python "requests"
        (some "us-east-1") []).events.filter isPublishRun = [] := by
  refine ⟨?_, ?_, ?_⟩ <;> decide

/--
C3 (code bug): `create` compares the `--region` value against the string
literal `"None"`, so an absent region (Python `None`) never triggers the
`aws configure get region` query even when a default region is configured;
the region stays unresolved and the invocation crashes before publishing.
`list` and `delete` (`if region is None`) do query and use the configured
default.  Evaluated at a concrete environment whose configured default is
`eu-west-2`.
-/
theorem create_never_queries_default_region :
    createRegion envBase none = none ∧
    get_default_region envBase = some "eu-west-2" ∧
    resolveRegionDefault envBase none = some "eu-west-2" ∧
    (create envBase "demo-layer" .python "requests" none []).events.filter isCfgQuery = [] ∧
    (create envBase "demo-layer" .python "requests" none []).outcome = .crashed ∧
    (create envBase "demo-layer" .python "requests" none []).events.filter isPublishRun
      = [] := by
  refine ⟨rfl, rfl, rfl, ?_, rfl, ?_⟩ <;> rfl

/--
C5 counterexample: the name `"abc\n"` contains a newline — a character
outside `[A-Za-z0-9-]` — yet Python's `re.match(r"^[a-zA-Z0-9-]+$", ...)`
accepts it (`$` also matches just before a single trailing newline), and a
concrete `create` run with that name validates it and succeeds, instead of
rejecting with the invalid-layer-name error and a nonzero exit.
-/
theorem create_accepts_name_with_trailing_newline :
    validName "abc\n" = true ∧ nameChar '\n' = false ∧
    (create envBase "abc\n" .python "requests" (some "us-east-1") []).outcome = .ok ∧
    Event.echo nameErrMsg ∉
      (create envBase "abc\n" .python "requests" (some "us-east-1") []).events := by
  refine ⟨rfl, rfl, rfl, ?_⟩
  decide

/--
C5 (amended): layer-name validation accepts exactly the strings consisting
of one or more `[A-Za-z0-9-]` characters, optionally followed by one
trailing newline; every other name is rejected with the invalid-layer-name
error, exit status 1, and no installer or publish subprocess is spawned.
-/
theorem create_name_validation_characterized :
    (∀ s : String, validName s = true ↔
      (matchesClass s.data = true ∨
        (s.data.getLast? = some '\n' ∧ matchesClass s.data.dropLast = true))) ∧
    (∀ (env : Env) (ln : String) (rt : Runtime) (pkgs : String) (region : Option String)
        (fs0 : List String), env.hasAws = true → env.hasPip = true → env.hasNpm = true →
      env.stsExit = 0 → validName ln = false →
      (create env ln rt pkgs region fs0).outcome = .exited ∧
      Event.echo nameErrMsg ∈ (create env ln rt pkgs region fs0).events ∧
      (create env ln rt pkgs region fs0).events.filter isInstallRun = [] ∧
      (create env ln rt pkgs region fs0).events.filter isPublishRun = []) := by
  constructor
  · intro s
    simp [validName, Bool.or_eq_true, Bool.and_eq_true, beq_iff_eq]
  · intro env ln rt pkgs region fs0 hA hP hN hS hV
    refine ⟨?_, ?_, ?_, ?_⟩ <;> simp [create, hA, hP, hN, hS, hV]

/-- Witness for the amended C5: a name with a space is rejected with the
error echo and exit 1. -/
theorem create_name_validation_characterized_witness :
    (create envBase "demo layer" .python "requests" (some "us-east-1") []).outcome
        = .exited ∧
    Event.echo nameErrMsg ∈
      (create envBase "demo layer" .python "requests" (some "us-east-1") []).events :=
  ⟨(create_name_validation_characterized.2 envBase "demo layer" .python "requests"
      (some "us-east-1") [] rfl rfl rfl rfl (by decide)).1,
    (create_name_validation_characterized.2 envBase "demo layer" .python "requests"
      (some "us-east-1") [] rfl rfl rfl rfl (by decide)).2.1⟩

/--
C8: When no region can be resolved (no `--region` and a failing
default-region query), `delete` prints the no-region diagnostic and returns
without spawning the delete API call and without a nonzero exit status,
while `list` prints the same diagnostic and exits 1 without spawning the
list API call.
-/
theorem delete_returns_ok_list_exits_on_missing_region (env : Env) (ln vn : String)
    (hA : env.hasAws = true) (hP : env.hasPip = true) (hN : env.hasNpm = true)
    (hS : env.stsExit = 0) (hC : env.cfgRegionExit ≠ 0) :
    (list env none).outcome = .exited ∧
    Event.echo noRegionMsg ∈ (list env none).events ∧
    (list env none).events.filter isListRun = [] ∧
    (delete env ln vn none).outcome = .ok ∧
    Event.echo noRegionMsg ∈ (delete env ln vn none).events ∧
    (delete env ln vn none).events.filter isDeleteRun = [] := by
  have hres : resolveRegionDefault env none = none := by
    simp [resolveRegionDefault, get_default_region, hC]
  refine ⟨?_, ?_, ?_, ?_, ?_, ?_⟩ <;>
    simp [list, delete, hA, hP, hN, hS, hres, regionQueryEventsIsNone]

/-- Witness for C8 at a concrete environment with a failing
`aws configure get region` query. -/
theorem delete_returns_ok_list_exits_on_missing_region_witness :
    (list { envBase with cfgRegionExit := 1 } none).outcome = .exited ∧
    (delete { envBase with cfgRegionExit := 1 } "demo-layer" "3" none).outcome = .ok ∧
    (delete { envBase with cfgRegionExit := 1 } "demo-layer" "3" none).events.filter
      isDeleteRun = [] :=
  ⟨(delete_returns_ok_list_exits_on_missing_region { envBase with cfgRegionExit := 1 }
      "demo-layer" "3" rfl rfl rfl rfl (by decide)).1,
    (delete_returns_ok_list_exits_on_missing_region { envBase with cfgRegionExit := 1 }
      "demo-layer" "3" rfl rfl rfl rfl (by decide)).2.2.2.1,
    (delete_returns_ok_list_exits_on_missing_region { envBase with cfgRegionExit := 1 }
      "demo-layer" "3" rfl rfl rfl rfl (by decide)).2.2.2.2.2⟩

theorem makeArchive_not_mem_preInstallEvents (u : String) (rt : Runtime) (pkgs : String)
    (region : Option String) (b e r : String) :
    Event.makeArchive b e r ∉ preInstallEvents u rt pkgs region := by
  cases rt <;> unfold preInstallEvents regionQueryEventsOf selectEchoOf installEchoOf
    <;> split <;> simp

theorem makeArchive_mem_archiveEvents_root (u ln pkgs b e r : String)
    (h : Event.makeArchive b e r ∈ archiveEvents u ln pkgs) : r = tempDirOf u := by
  rcases (by simpa [archiveEvents] using h : b = tempDirOf u ++ "/" ++ ln ∧ e = "zip"
    ∧ r = tempDirOf u) with ⟨h1, h2, h3⟩
  exact h3

/-- Every archive call a `create` invocation performs has the invocation's
own staging root as its source tree. -/
theorem create_makeArchive_root (env : Env) (ln : String) (rt : Runtime) (pkgs : String)
    (region : Option String) (fs0 : List String) (b e r : String)
    (hmem : Event.makeArchive b e r ∈ (create env ln rt pkgs region fs0).events) :
    r = tempDirOf env.uuid := by
  by_cases hA : env.hasAws = false
  · simp [create, hA] at hmem
  by_cases hP : env.hasPip = false
  · simp [create, hA, hP] at hmem
  by_cases hN : env.hasNpm = false
  · simp [create, hA, hP, hN] at hmem
  by_cases hS : env.stsExit ≠ 0
  · simp [create, hA, hP, hN, hS] at hmem
  by_cases hV : validName ln = false
  · simp [create, hA, hP, hN, hS, hV] at hmem
  have hpre := makeArchive_not_mem_preInstallEvents env.uuid rt pkgs region b e r
  by_cases hI : env.installExit ≠ 0
  · simp [create, hA, hP, hN, hS, hV, hI, hpre] at hmem
  by_cases hz : zipFileOf env.uuid ln ∈ archivedFs env ln rt fs0
  case neg =>
    simp [create, hA, hP, hN, hS, hV, hI, hz, hpre, archiveEvents] at hmem
    exact hmem.2.2
  rcases hR : createRegion env region with _ | rg
  · simp [create, hA, hP, hN, hS, hV, hI, hz, hR, hpre, archiveEvents] at hmem
    exact hmem.2.2
  by_cases hPub : env.publishExit ≠ 0 <;>
    [(simp [create, hA, hP, hN, hS, hV, hI, hz, hR, hPub, hpre, archiveEvents] at hmem;
      exact hmem.2.2);
     (simp [create, hA, hP, hN, hS, hV, hI, hz, hR, hPub, hpre, archiveEvents] at hmem;
      exact hmem.2.2)]

/--
C9: Staging areas are never shared between two `create` invocations that
draw distinct (equal-length, as uuid4 strings are) unique identifiers: the
whole directory tree below one invocation's staging root is disjoint from
the tree below the other's, and every archive call of an invocation uses
its own staging root as source tree, so nothing staged by one invocation —
including a prior failed one — can appear in the other invocation's archive.
-/
theorem create_staging_isolated (env₁ env₂ : Env)
    (ln₂ : String) (rt₂ : Runtime) (pkgs₂ : String) (region₂ : Option String)
    (fs₂ : List String)
    (hne : env₁.uuid ≠ env₂.uuid) (hlen : env₁.uuid.length = env₂.uuid.length) :
    (∀ p, underDir (tempDirOf env₁.uuid) p = true →
      underDir (tempDirOf env₂.uuid) p = false) ∧
    (∀ b e r, Event.makeArchive b e r ∈ (create env₂ ln₂ rt₂ pkgs₂ region₂ fs₂).events →
      r = tempDirOf env₂.uuid ∧
        ∀ p, underDir (tempDirOf env₁.uuid) p = true → underDir r p = false) := by
  refine ⟨tempDir_trees_disjoint hne hlen, ?_⟩
  intro b e r hmem
  have hr := create_makeArchive_root env₂ ln₂ rt₂ pkgs₂ region₂ fs₂ b e r hmem
  subst hr
  exact ⟨rfl, tempDir_trees_disjoint hne hlen⟩

/-- Witness for C9: with uuids `2f1d9a6c` and `77aa88bb`, a path staged by
the first invocation is outside the second invocation's staging tree. -/
theorem create_staging_isolated_witness :
    underDir (tempDirOf "77aa88bb") "/tmp/layergen/2f1d9a6c/python/requests" = false :=
  (create_staging_isolated envBase { envBase with uuid := "77aa88bb" } "demo-layer"
      .python "requests" (some "us-east-1") [] (by decide) (by decide)).1
    "/tmp/layergen/2f1d9a6c/python/requests" (by decide)

/--
C10: The archive is written at `<staging-root>/<layer-name>.zip`, a strict
child of the staging root, so the archiver's source tree (the staging root)
is the directory receiving the archive; the trace contains no removal
other than the single recursive `rmtree` of the staging root, and that one
removal already deletes the archive file — there is no separate
archive-deletion step.
-/
theorem create_archive_inside_staging_root (env : Env) (ln : String) (rt : Runtime)
    (pkgs : String) (region : Option String) (fs0 : List String) :
    zipFileOf env.uuid ln = tempDirOf env.uuid ++ "/" ++ (ln ++ ".zip") ∧
    underDir (tempDirOf env.uuid) (zipFileOf env.uuid ln) = true ∧
    zipFileOf env.uuid ln ≠ tempDirOf env.uuid ∧
    ((create env ln rt pkgs region fs0).events.filter isRmtree = [] ∨
      (create env ln rt pkgs region fs0).events.filter isRmtree
        = [.rmtree (tempDirOf env.uuid)]) ∧
    ((create env ln rt pkgs region fs0).events.filter isMakeArchive = [] ∨
      (create env ln rt pkgs region fs0).events.filter isMakeArchive
        = [.makeArchive (tempDirOf env.uuid ++ "/" ++ ln) "zip" (tempDirOf env.uuid)]) ∧
    (∀ fs, zipFileOf env.uuid ln ∉ rmtreeFS (tempDirOf env.uuid) fs) := by
  have hrm : (create env ln rt pkgs region fs0).events.filter isRmtree = [] ∨
      (create env ln rt pkgs region fs0).events.filter isRmtree
        = [.rmtree (tempDirOf env.uuid)] := by
    by_cases hA : env.hasAws = false
    · exact .inl (by simp [create, hA])
    by_cases hP : env.hasPip = false
    · exact .inl (by simp [create, hA, hP])
    by_cases hN : env.hasNpm = false
    · exact .inl (by simp [create, hA, hP, hN])
    by_cases hS : env.stsExit ≠ 0
    · exact .inl (by simp [create, hA, hP, hN, hS])
    by_cases hV : validName ln = false
    · exact .inl (by simp [create, hA, hP, hN, hS, hV])
    by_cases hI : env.installExit ≠ 0
    · exact .inr (by
        simp [create, hA, hP, hN, hS, hV, hI, List.filter_append,
          filter_isRmtree_preInstallEvents])
    by_cases hz : zipFileOf env.uuid ln ∈ archivedFs env ln rt fs0
    case neg =>
      exact .inr (by
        simp [create, hA, hP, hN, hS, hV, hI, hz, List.filter_append,
          filter_isRmtree_preInstallEvents, filter_isRmtree_archiveEvents])
    rcases hR : createRegion env region with _ | r
    · exact .inr (by
        simp [create, hA, hP, hN, hS, hV, hI, hz, hR, List.filter_append,
          filter_isRmtree_preInstallEvents, filter_isRmtree_archiveEvents])
    by_cases hPub : env.publishExit ≠ 0 <;>
      exact .inr (by
        simp [create, hA, hP, hN, hS, hV, hI, hz, hR, hPub, List.filter_append,
          filter_isRmtree_preInstallEvents, filter_isRmtree_archiveEvents])
  have hma : (create env ln rt pkgs region fs0).events.filter isMakeArchive = [] ∨
      (create env ln rt pkgs region fs0).events.filter isMakeArchive
        = [.makeArchive (tempDirOf env.uuid ++ "/" ++ ln) "zip" (tempDirOf env.uuid)] := by
    by_cases hA : env.hasAws = false
    · exact .inl (by simp [create, hA])
    by_cases hP : env.hasPip = false
    · exact .inl (by simp [create, hA, hP])
    by_cases hN : env.hasNpm = false
    · exact .inl (by simp [create, hA, hP, hN])
    by_cases hS : env.stsExit ≠ 0
    · exact .inl (by simp [create, hA, hP, hN, hS])
    by_cases hV : validName ln = false
    · exact .inl (by simp [create, hA, hP, hN, hS, hV])
    by_cases hI : env.installExit ≠ 0
    · exact .inl (by
        simp [create, hA, hP, hN, hS, hV, hI, List.filter_append,
          filter_isMakeArchive_preInstallEvents])
    by_cases hz : zipFileOf env.uuid ln ∈ archivedFs env ln rt fs0
    case neg =>
      exact .inr (by
        simp [create, hA, hP, hN, hS, hV, hI, hz, List.filter_append,
          filter_isMakeArchive_preInstallEvents, filter_isMakeArchive_archiveEvents])
    rcases hR : createRegion env region with _ | r
    · exact .inr (by
        simp [create, hA, hP, hN, hS, hV, hI, hz, hR, List.filter_append,
          filter_isMakeArchive_preInstallEvents, filter_isMakeArchive_archiveEvents])
    by_cases hPub : env.publishExit ≠ 0 <;>
      exact .inr (by
        simp [create, hA, hP, hN, hS, hV, hI, hz, hR, hPub, List.filter_append,
          filter_isMakeArchive_preInstallEvents, filter_isMakeArchive_archiveEvents])
  exact ⟨zipFile_eq_child _ _, underDir_zipFile _ _, zipFile_ne_tempDir _ _, hrm, hma,
    fun fs => not_mem_rmtreeFS (underDir_zipFile _ _) fs⟩

/-- Witness for C10: on a concrete successful run, the archive path is a
strict child of the staging root, one `rmtree` of the staging root is the
only removal in the trace, and it deletes the archive. -/
theorem create_archive_inside_staging_root_witness :
    underDir (tempDirOf "2f1d9a6c") (zipFileOf "2f1d9a6c" "demo-layer") = true ∧
    zipFileOf "2f1d9a6c" "demo-layer" ∉
      rmtreeFS (tempDirOf "2f1d9a6c") [zipFileOf "2f1d9a6c" "demo-layer"] ∧
    (create envBase "demo-layer" .python "requests" (some "us-east-1") []).events.filter
      isRmtree = [.rmtree (tempDirOf "2f1d9a6c")] :=
  ⟨(create_archive_inside_staging_root envBase "demo-layer" .python "requests"
      (some "us-east-1") []).2.1,
    (create_archive_inside_staging_root envBase "demo-layer" .python "requests"
      (some "us-east-1") []).2.2.2.2.2 _,
    ((create_archive_inside_staging_root envBase "demo-layer" .python "requests"
      (some "us-east-1") []).2.2.2.1).resolve_left (by decide)⟩

end Layergen
